import Mathlib

/-!
Verification development for the Elevate Edge HVAC intake voice agent
(`pipecat-agent/bot.py`).  The conversation-state and intake-extraction
core is shallowly embedded: Python dicts become insertion-ordered
association lists, the per-call mutable `CallState` becomes an explicit
record threaded through the handlers, and external provider calls
(OpenAI completions, the persistence HTTP POST) become oracle
parameters / outcome flags.  Strings that only matter for emptiness and
equality are Lean `String`s; the code-fence stripping of
`post_call_extraction` is modelled on the underlying character lists.
-/

namespace HvacBot

/-- A single intake field definition (`DESIGN_FIELDS` etc. entries). -/
structure Field where
  key : String
  label : String
  required : Bool
deriving DecidableEq, Repr

/-- The `DESIGN_FIELDS` list from bot.py. -/
def DESIGN_FIELDS : List Field :=
  [ ⟨"buildingType", "Building Type", true⟩,
    ⟨"buildingSize", "Building Size (sq ft)", true⟩,
    ⟨"location", "Location", true⟩,
    ⟨"projectGoals", "Project Goals", true⟩,
    ⟨"timeline", "Timeline", true⟩,
    ⟨"budget", "Budget Range", false⟩,
    ⟨"existingSystem", "Existing System", false⟩,
    ⟨"specialRequirements", "Special Requirements", false⟩ ]

/-- The `SERVICE_FIELDS` list from bot.py. -/
def SERVICE_FIELDS : List Field :=
  [ ⟨"systemType", "System Type", true⟩,
    ⟨"systemAge", "System Age", true⟩,
    ⟨"symptoms", "Symptoms/Issue", true⟩,
    ⟨"urgency", "Urgency Level", true⟩,
    ⟨"location", "Location", true⟩,
    ⟨"siteConstraints", "Site Constraints", false⟩,
    ⟨"makeModel", "Make and Model", false⟩ ]

/-- The `QUOTE_FIELDS` list from bot.py. -/
def QUOTE_FIELDS : List Field :=
  [ ⟨"projectScope", "Project Scope", true⟩,
    ⟨"buildingType", "Building Type", true⟩,
    ⟨"buildingSize", "Building Size (sq ft)", true⟩,
    ⟨"location", "Location", true⟩,
    ⟨"existingSystem", "Existing System", false⟩,
    ⟨"timeline", "Timeline", false⟩,
    ⟨"budget", "Budget Range", false⟩ ]

/-- Registry lookup `CALL_TYPE_FIELDS.get(call_type, [])` with `[]` default. -/
def callTypeFields (call_type : String) : List Field :=
  if call_type = "design" then DESIGN_FIELDS
  else if call_type = "service" then SERVICE_FIELDS
  else if call_type = "quote" then QUOTE_FIELDS
  else []

/-- Registry lookup lifted to the nullable `call_state.call_type`
(`CALL_TYPE_FIELDS.get(call_state.call_type, [])`, `None` giving `[]`). -/
def callTypeFieldsOpt (call_type : Option String) : List Field :=
  match call_type with
  | some ct => callTypeFields ct
  | none => []

/-! Section: Python dict as insertion-ordered association list -/

/-- Python `d.get(k)` on a dict: value of the first (only) entry with key `k`. -/
def dictGet : List (String × String) → String → Option String
  | [], _ => none
  | kv :: rest, k => if kv.1 = k then some kv.2 else dictGet rest k

/-- Python `d[k] = v` on a dict: replace in place if the key is present,
otherwise append at the end (insertion order preserved). -/
def dictSet : List (String × String) → String → String → List (String × String)
  | [], k, v => [(k, v)]
  | kv :: rest, k, v => if kv.1 = k then (k, v) :: rest else kv :: dictSet rest k v

/-- Truthiness of `d.get(k)` in Python: key present with a non-empty value. -/
def dictTruthy (d : List (String × String)) (k : String) : Bool :=
  match dictGet d k with
  | some v => v ≠ ""
  | none => false

/-! Section: Call state -/

/-- One entry of `call_state.turns`.  `extractedData` holds the serialized
payload (`json.dumps(extracted_data)`), `none` standing for Python `None`. -/
structure Turn where
  role : String
  content : String
  turnNumber : Nat
  extractedData : Option String
deriving DecidableEq, Repr

/-- One LLM context message (`context.messages` entries). -/
structure Message where
  role : String
  content : String
deriving DecidableEq, Repr

/-- The `CallState` class from bot.py.  `saved` is the `_saved` double-save guard. -/
structure CallState where
  call_sid : String
  caller_number : String
  direction : String
  call_type : Option String
  caller_name : Option String
  caller_email : Option String
  caller_address : Option String
  intake_data : List (String × String)
  summary : Option String
  turns : List Turn
  is_complete : Bool
  turn_counter : Nat
  saved : Bool
deriving DecidableEq, Repr

/-- Method `CallState.add_turn`: bumps the counter and appends a numbered turn. -/
def add_turn (s : CallState) (role content : String) (extracted_data : Option String) :
    CallState :=
  { s with
    turn_counter := s.turn_counter + 1,
    turns := s.turns ++
      [{ role := role, content := content, turnNumber := s.turn_counter + 1,
         extractedData := extracted_data }] }

/-! Section: Function-call handlers

Each handler is the state transition plus the status string passed to
`params.result_callback`.  Logging and the LLM-context system-prompt
rewrite in `handle_classify_call` are I/O against the external pipeline
and carry no call-state information, so they are not part of the state
transition modelled here. -/

/-- The loop in `handle_classify_call` pre-seeding `intake_data` with `""`
for every registry field whose key is not yet present. -/
def preseedFields (d : List (String × String)) (fs : List Field) :
    List (String × String) :=
  fs.foldl (fun d f => if (dictGet d f.key).isSome then d else d ++ [(f.key, "")]) d

/-- Handler `handle_classify_call`; its argument is `args.get("call_type", "general")`. -/
def handle_classify_call (s : CallState) (arg_call_type : Option String) :
    CallState × String :=
  let call_type := arg_call_type.getD "general"
  let s := { s with call_type := some call_type }
  if call_type = "emergency" then
    (s, "Call classified as emergency. Provide immediate safety instructions and assure the caller a technician will call back within 15 minutes.")
  else
    let fields := callTypeFields call_type
    let s := { s with intake_data := preseedFields s.intake_data fields }
    (s, "Call classified as " ++ call_type ++ ". Now begin collecting the intake information by asking about the first required field.")

/-- The loop in `handle_update_intake` storing each submitted key whose
value is truthy (non-empty). -/
def applyIntakeUpdates (d : List (String × String))
    (fields : List (String × String)) : List (String × String) :=
  fields.foldl (fun d kv => if kv.2 ≠ "" then dictSet d kv.1 kv.2 else d) d

/-- Handler `handle_update_intake`: stores non-empty submitted values, then builds
the progress status string from the active call type's registry entry. -/
def handle_update_intake (s : CallState) (fields : List (String × String)) :
    CallState × String :=
  let s := { s with intake_data := applyIntakeUpdates s.intake_data fields }
  let all_fields := callTypeFieldsOpt s.call_type
  let required := all_fields.filter (fun f => f.required)
  let collected_required := required.filter (fun f => dictTruthy s.intake_data f.key)
  let remaining := all_fields.filter (fun f => ! dictTruthy s.intake_data f.key)
  let status := "Updated " ++ toString fields.length ++ " field(s). " ++
    toString collected_required.length ++ "/" ++ toString required.length ++
    " required fields collected."
  let status :=
    if remaining ≠ [] then
      status ++ " Still needed: " ++ ", ".intercalate (remaining.map (fun f => f.label)) ++ "."
    else
      status ++ " All fields collected! Read back a summary and ask the caller to confirm."
  (s, status)

/-- Truthiness of `args.get("name")`: present and non-empty. -/
def argTruthy (o : Option String) : Bool :=
  match o with
  | some v => v ≠ ""
  | none => false

/-- Handler `handle_update_caller`: each contact field is overwritten only when the
corresponding argument is present and non-empty. -/
def handle_update_caller (s : CallState)
    (name email address : Option String) : CallState × String :=
  let s := if argTruthy name then { s with caller_name := name } else s
  let s := if argTruthy email then { s with caller_email := email } else s
  let s := if argTruthy address then { s with caller_address := address } else s
  (s, "Caller information updated. Continue with the intake.")

/-- Handler `handle_complete_intake`: stores the summary and marks completion. -/
def handle_complete_intake (s : CallState) (arg_summary : Option String) :
    CallState × String :=
  let s := { s with summary := some (arg_summary.getD ""), is_complete := true }
  (s, "Thank the caller warmly, let them know a specialist will follow up soon, and say goodbye.")

/-! Section: Python `str.strip` and code-fence handling, on character lists -/

/-- The whitespace characters stripped by Python `str.strip()`. -/
def pyIsSpace (c : Char) : Bool :=
  c = ' ' || c = '\t' || c = '\n' || c = '\r' || c = '\x0b' || c = '\x0c'

/-- Leading-whitespace removal. -/
def stripL (l : List Char) : List Char := l.dropWhile pyIsSpace

/-- Trailing-whitespace removal. -/
def stripR (l : List Char) : List Char := ((l.reverse).dropWhile pyIsSpace).reverse

/-- Python `str.strip()` on the character list. -/
def pyStrip (l : List Char) : List Char := stripR (stripL l)

/-- Python `str.strip()` lifted back to `String`. -/
def pyStripStr (s : String) : String := String.mk (pyStrip s.data)

/-- Python `text.split("\n", 1)[1]`: everything after the first newline. -/
def afterFirstNL : List Char → List Char
  | [] => []
  | c :: rest => if c = '\n' then rest else afterFirstNL rest

/-- The three-backtick Markdown fence, as a character list. -/
def fence : List Char := "```".data

/-- Line `if text.startswith("\x60\x60\x60")` of `post_call_extraction`:
drop the leading fence line (everything up to and including the first
newline, or just the three fence characters when there is no newline). -/
def dropLeadingFence (text : List Char) : List Char :=
  if fence.isPrefixOf text then
    (if ('\n' ∈ text) then afterFirstNL text else text.drop 3)
  else text

/-- Line `if text.endswith("\x60\x60\x60")` of `post_call_extraction`:
drop a trailing fence (`text[:-3]`). -/
def dropTrailingFence (text : List Char) : List Char :=
  if fence.isSuffixOf text then text.take (text.length - 3) else text

/-- The fence-stripping block of `post_call_extraction`: strip the
response, drop a leading fence line and a trailing fence, strip again. -/
def stripCodeFences (text0 : List Char) : List Char :=
  pyStrip (dropTrailingFence (dropLeadingFence (pyStrip text0)))

/-! Section: Post-call extraction and reconciliation -/

/-- The JSON object `post_call_extraction` asks the provider for.  An
absent key is `none`; `fields` defaults to the empty mapping
(key absent in the JSON). -/
structure Extracted where
  callType : Option String
  fields : List (String × String)
  callerName : Option String
  callerEmail : Option String
  callerAddress : Option String
  summary : Option String
deriving DecidableEq, Repr

/-- Function `post_call_extraction`, with the provider call and the JSON parse as
oracle parameters: `providerText = none` models a failed provider
request (the exception is caught and `None` returned), and
`parseJson _ = none` models a JSON parse failure (likewise caught).
When the provider answers, its text is stripped and de-fenced before
parsing, exactly as in the source. -/
def post_call_extraction (parseJson : List Char → Option Extracted)
    (providerText : Option (List Char)) : Option Extracted :=
  match providerText with
  | none => none
  | some t => parseJson (stripCodeFences t)

/-- The turn-backfill loop of `extract_from_context`: rebuild turns from
the LLM context messages, skipping empty-content and system messages,
numbering sequentially from `n + 1`. -/
def backfillTurns (msgs : List Message) (n : Nat) : List Turn :=
  match msgs with
  | [] => []
  | m :: rest =>
    if m.content = "" ∨ m.role = "system" then backfillTurns rest n
    else if m.role = "user" then
      { role := "caller", content := m.content, turnNumber := n + 1,
        extractedData := none } :: backfillTurns rest (n + 1)
    else if m.role = "assistant" then
      { role := "agent", content := m.content, turnNumber := n + 1,
        extractedData := none } :: backfillTurns rest (n + 1)
    else backfillTurns rest n

/-- Python `join` with a newline separator. -/
def joinNL : List String → String
  | [] => ""
  | [x] => x
  | x :: y :: rest => x ++ "\n" ++ joinNL (y :: rest)

/-- The transcript built from the turns inside `extract_from_context`. -/
def transcriptOf (ts : List Turn) : String :=
  joinNL (ts.map (fun t =>
    (if t.role = "agent" then "Agent: " else "Caller: ") ++ t.content))

/-- Truthiness of `call_state.intake_data`'s emptiness test:
`not call_state.intake_data or all(v == "" for v in ...values())`. -/
def intakeEmptyish (d : List (String × String)) : Bool :=
  d.isEmpty || d.all (fun kv => kv.2 == "")

/-- Truthiness of `not call_state.call_type or call_state.call_type == "unknown"`. -/
def callTypeFalsy (ct : Option String) : Bool :=
  match ct with
  | none => true
  | some v => v = "" || v = "unknown"

/-- The success block of step 2 of `extract_from_context`: replace
`intake_data` wholesale with the extracted fields, take the extracted
summary when the key is present, overwrite contact fields on truthy
extracted values, and backfill the call type only when it is still
falsy or `"unknown"`. -/
def applyExtraction (s : CallState) (e : Extracted) : CallState :=
  let s := { s with intake_data := e.fields }
  let newSummary := match e.summary with
                    | some x => some x
                    | none => s.summary
  let s := { s with summary := newSummary }
  let s := if argTruthy e.callerName then { s with caller_name := e.callerName } else s
  let s := if argTruthy e.callerEmail then { s with caller_email := e.callerEmail } else s
  let s := if argTruthy e.callerAddress then { s with caller_address := e.callerAddress } else s
  let newCallType := match e.callType with
                     | some c => some c
                     | none => s.call_type
  let s := if callTypeFalsy s.call_type then { s with call_type := newCallType } else s
  s

/-- Step 1 of `extract_from_context`: when no turns were recorded live,
rebuild them from the LLM context messages. -/
def reconcileTurns (ctx : List Message) (s0 : CallState) : CallState :=
  if s0.turns = [] then { s0 with turns := backfillTurns ctx 0 } else s0

/-- The guard of step 2: intake data empty or all-empty, and the
reconstructed transcript non-empty after stripping. -/
def shouldExtract (s : CallState) : Bool :=
  intakeEmptyish s.intake_data && !(pyStripStr (transcriptOf s.turns) == "")

/-- Step 3 of `extract_from_context`: generate a summary when none exists
and there is at least one turn (`gsum` is the `generate_summary` oracle). -/
def backfillSummary (gsum : Option String) (s : CallState) : CallState :=
  if (s.summary = none ∨ s.summary = some "") ∧ s.turns ≠ [] then
    { s with summary := gsum }
  else s

/-- Function `extract_from_context`, with the two provider calls as
oracles (`pce` is the `post_call_extraction` result if invoked, `gsum`
the `generate_summary` result if invoked).  Returns the updated state
and whether post-call extraction was invoked: step 1 backfills turns,
step 2 runs extraction under `shouldExtract` and on success applies the
extracted record, step 3 backfills the summary. -/
def extract_from_context (pce : Option Extracted) (gsum : Option String)
    (ctx : List Message) (s0 : CallState) : CallState × Bool :=
  let s1 := reconcileTurns ctx s0
  let invokePce := shouldExtract s1
  let s2 :=
    if invokePce then
      match pce with
      | some e => applyExtraction s1 e
      | none => s1
    else s1
  (backfillSummary gsum s2, invokePce)

/-! Section: Persistence dispatcher -/

set_option linter.unusedVariables false

/-- Function `save_call_data`.  The HTTP POST is external; `deliveryOk` is the
outcome of the delivery attempt (success or failure/exception, both
caught in the source, neither touching the state).  Returns the updated
state and whether an outbound delivery was attempted.  The guard is set
on the state that performs the attempt, before the POST. -/
def save_call_data (deliveryOk : Bool) (s : CallState) : CallState × Bool :=
  if s.saved then (s, false)
  else if s.turns = [] then (s, false)
  else ({ s with saved := true }, true)

/-! Section: auxiliary definitions for the theorems -/

/-- Constructor `CallState.__init__`: a fresh per-call state. -/
def initState (call_sid caller_number direction : String)
    (call_type caller_name : Option String) : CallState :=
  { call_sid := call_sid, caller_number := caller_number, direction := direction,
    call_type := call_type, caller_name := caller_name, caller_email := none,
    caller_address := none, intake_data := [], summary := none, turns := [],
    is_complete := false, turn_counter := 0, saved := false }

/-- The turn-number invariant of the spec: the `turnNumber`s of the turn
list are exactly `1, 2, …, n`, in order (strictly increasing from 1,
no gaps). -/
def turnsOk (ts : List Turn) : Prop :=
  ts.map (fun t => t.turnNumber) = List.range' 1 ts.length

/-- A sample JSON parser used to instantiate the extraction theorems on
concrete inputs: accepts exactly the one-character payload `a`. -/
def pjW (l : List Char) : Option Extracted :=
  if l = ['a'] then some ⟨none, [], none, none, none, none⟩ else none

/-- Substring search on character lists: does `pat` occur contiguously? -/
def hasSubList (pat : List Char) : List Char → Bool
  | [] => pat.isEmpty
  | c :: rest => pat.isPrefixOf (c :: rest) || hasSubList pat rest

/-- Python `in` on strings: substring test. -/
def hasSubstr (s pat : String) : Bool := hasSubList pat.data s.data

/-- The numeric prefix of the `handle_update_intake` status string
(`"Updated N field(s). C/R required fields collected."`). -/
def statusBase (s : CallState) (fields : List (String × String)) : String :=
  "Updated " ++ toString fields.length ++ " field(s). " ++
    toString (((callTypeFieldsOpt s.call_type).filter (fun f => f.required)).filter
      (fun f => dictTruthy (applyIntakeUpdates s.intake_data fields) f.key)).length ++
    "/" ++ toString ((callTypeFieldsOpt s.call_type).filter (fun f => f.required)).length ++
    " required fields collected."

/-- A concrete one-turn call state used to instantiate theorems. -/
def stateW : CallState :=
  add_turn (initState "CA1" "+15551230000" "inbound" none none) "caller" "hi" none

/-- A concrete extraction result used to instantiate theorems. -/
def extractW : Extracted :=
  ⟨none, [("a", "1")], none, none, none, none⟩

/-- A design-typed call state with a stored caller name and one turn,
used to exercise the post-call extraction path. -/
def stateC2 : CallState :=
  { initState "CA9" "+15550001111" "inbound" (some "design") (some "Alice") with
    turns := [⟨"caller", "hi", 1, none⟩] }

/-- An extraction result carrying a different caller name (`Bob`). -/
def extractC2 : Extracted :=
  ⟨none, [("buildingType", "office")], some "Bob", none, none, none⟩

/-- A fresh state classified as `design` (all 8 fields pre-seeded empty). -/
def stateC1 : CallState :=
  (handle_classify_call (initState "CA7" "+15550002222" "inbound" none none)
    (some "design")).1

/-- A submission filling exactly the 5 required design fields. -/
def fieldsC1 : List (String × String) :=
  [("buildingType", "office"), ("buildingSize", "5000"), ("location", "Boise"),
   ("projectGoals", "new heat pump"), ("timeline", "Q3")]

/-! Section: association-list lemmas -/

theorem dictGet_cons (kv : String × String) (rest : List (String × String))
    (k : String) :
    dictGet (kv :: rest) k = if kv.1 = k then some kv.2 else dictGet rest k := rfl

theorem dictSet_cons (kv : String × String) (rest : List (String × String))
    (k v : String) :
    dictSet (kv :: rest) k v =
      if kv.1 = k then (k, v) :: rest else kv :: dictSet rest k v := rfl

theorem dictGet_dictSet_self (d : List (String × String)) (k v : String) :
    dictGet (dictSet d k v) k = some v := by
  induction d with
  | nil => simp [dictGet, dictSet]
  | cons kv rest ih =>
    rw [dictSet_cons]
    by_cases h : kv.1 = k
    · rw [if_pos h, dictGet_cons, if_pos rfl]
    · rw [if_neg h, dictGet_cons, if_neg h, ih]

theorem dictGet_dictSet_ne (d : List (String × String)) (k v k' : String)
    (h : k ≠ k') : dictGet (dictSet d k v) k' = dictGet d k' := by
  induction d with
  | nil => simp [dictGet, dictSet, h]
  | cons kv rest ih =>
    rw [dictSet_cons]
    by_cases hk : kv.1 = k
    · rw [if_pos hk, dictGet_cons, dictGet_cons, if_neg h, if_neg (hk ▸ h)]
    · rw [if_neg hk, dictGet_cons, dictGet_cons, ih]

theorem dictGet_append_of_isSome (d d' : List (String × String)) (k : String)
    (h : (dictGet d k).isSome) : dictGet (d ++ d') k = dictGet d k := by
  induction d with
  | nil => simp [dictGet] at h
  | cons kv rest ih =>
    rw [List.cons_append, dictGet_cons, dictGet_cons]
    by_cases hk : kv.1 = k
    · rw [if_pos hk, if_pos hk]
    · rw [dictGet_cons, if_neg hk] at h
      rw [if_neg hk, if_neg hk, ih h]

theorem dictGet_append_of_none (d d' : List (String × String)) (k : String)
    (h : dictGet d k = none) : dictGet (d ++ d') k = dictGet d' k := by
  induction d with
  | nil => simp [dictGet]
  | cons kv rest ih =>
    rw [dictGet_cons] at h
    by_cases hk : kv.1 = k
    · rw [if_pos hk] at h; exact absurd h (by simp)
    · rw [if_neg hk] at h
      rw [List.cons_append, dictGet_cons, if_neg hk, ih h]

theorem applyIntakeUpdates_nil (d : List (String × String)) :
    applyIntakeUpdates d [] = d := rfl

theorem applyIntakeUpdates_cons (d : List (String × String))
    (kv : String × String) (rest : List (String × String)) :
    applyIntakeUpdates d (kv :: rest) =
      applyIntakeUpdates (if kv.2 ≠ "" then dictSet d kv.1 kv.2 else d) rest := rfl

theorem applyIntakeUpdates_notin (d : List (String × String))
    (fields : List (String × String)) (k : String)
    (h : k ∉ fields.map Prod.fst) :
    dictGet (applyIntakeUpdates d fields) k = dictGet d k := by
  induction fields generalizing d with
  | nil => rfl
  | cons kv rest ih =>
    simp only [List.map_cons, List.mem_cons, not_or] at h
    obtain ⟨h1, h2⟩ := h
    rw [applyIntakeUpdates_cons]
    by_cases hv : kv.2 = ""
    · rw [if_neg (by simp [hv])]
      exact ih d h2
    · rw [if_pos (by simp [hv])]
      rw [ih _ h2, dictGet_dictSet_ne _ _ _ _ (fun hh => h1 hh.symm)]

theorem applyIntakeUpdates_mem (d : List (String × String))
    (fields : List (String × String)) (k v : String)
    (hnd : (fields.map Prod.fst).Nodup) (hmem : (k, v) ∈ fields) :
    dictGet (applyIntakeUpdates d fields) k =
      if v = "" then dictGet d k else some v := by
  induction fields generalizing d with
  | nil => simp at hmem
  | cons kv rest ih =>
    simp only [List.map_cons, List.nodup_cons] at hnd
    obtain ⟨hk1, hnd'⟩ := hnd
    rw [applyIntakeUpdates_cons]
    rcases List.mem_cons.mp hmem with heq | hmem'
    · have hkv1 : kv.1 = k := by rw [← heq]
      have hkv2 : kv.2 = v := by rw [← heq]
      have hkrest : k ∉ rest.map Prod.fst := by rw [← hkv1]; exact hk1
      by_cases hv : v = ""
      · rw [if_neg (by simp [hkv2, hv]), if_pos hv]
        exact applyIntakeUpdates_notin _ _ _ hkrest
      · rw [if_pos (by simp [hkv2, hv]), if_neg hv]
        rw [applyIntakeUpdates_notin _ _ _ hkrest, hkv1, hkv2, dictGet_dictSet_self]
    · have hk : k ∈ rest.map Prod.fst :=
        List.mem_map.mpr ⟨(k, v), hmem', rfl⟩
      have hne : kv.1 ≠ k := fun hh => hk1 (hh ▸ hk)
      by_cases hv2 : kv.2 = ""
      · rw [if_neg (by simp [hv2])]
        exact ih d hnd' hmem'
      · rw [if_pos (by simp [hv2])]
        rw [ih _ hnd' hmem', dictGet_dictSet_ne _ _ _ _ hne]

theorem preseedFields_nil (d : List (String × String)) :
    preseedFields d [] = d := rfl

theorem preseedFields_cons (d : List (String × String)) (f : Field)
    (rest : List Field) :
    preseedFields d (f :: rest) =
      preseedFields (if (dictGet d f.key).isSome then d else d ++ [(f.key, "")]) rest := rfl

theorem preseedFields_preserve (d : List (String × String)) (fs : List Field)
    (k v : String) (h : dictGet d k = some v) :
    dictGet (preseedFields d fs) k = some v := by
  induction fs generalizing d with
  | nil => exact h
  | cons f rest ih =>
    rw [preseedFields_cons]
    by_cases hs : (dictGet d f.key).isSome
    · rw [if_pos hs]; exact ih d h
    · rw [if_neg hs]
      exact ih _ (by rw [dictGet_append_of_isSome _ _ _ (by simp [h])]; exact h)

theorem preseedFields_mem (d : List (String × String)) (fs : List Field)
    (f : Field) (hmem : f ∈ fs) :
    dictGet (preseedFields d fs) f.key = some ((dictGet d f.key).getD "") := by
  induction fs generalizing d with
  | nil => simp at hmem
  | cons g rest ih =>
    rw [preseedFields_cons]
    rcases List.mem_cons.mp hmem with heq | hmem'
    · subst heq
      by_cases hs : (dictGet d f.key).isSome
      · rw [if_pos hs]
        obtain ⟨w, hw⟩ := Option.isSome_iff_exists.mp hs
        rw [preseedFields_preserve _ _ _ _ hw, hw]
        rfl
      · rw [if_neg hs]
        have hn : dictGet d f.key = none := Option.not_isSome_iff_eq_none.mp hs
        have hget : dictGet (d ++ [(f.key, "")]) f.key = some "" := by
          rw [dictGet_append_of_none _ _ _ hn]; simp [dictGet]
        rw [preseedFields_preserve _ _ _ _ hget, hn]
        rfl
    · by_cases hs : (dictGet d g.key).isSome
      · rw [if_pos hs]; exact ih d hmem'
      · rw [if_neg hs]
        rw [ih _ hmem']
        congr 1
        by_cases hdk : (dictGet d f.key).isSome
        · rw [dictGet_append_of_isSome _ _ _ hdk]
        · have hn : dictGet d f.key = none := Option.not_isSome_iff_eq_none.mp hdk
          rw [dictGet_append_of_none _ _ _ hn, hn]
          by_cases hgf : g.key = f.key
          · simp [dictGet, hgf]
          · simp [dictGet, hgf]

/-! Section: turn-number lemmas -/

theorem backfillTurns_map (msgs : List Message) (n : Nat) :
    (backfillTurns msgs n).map (fun t => t.turnNumber) =
      List.range' (n + 1) (backfillTurns msgs n).length := by
  induction msgs generalizing n with
  | nil => simp [backfillTurns]
  | cons m rest ih =>
    rw [backfillTurns]
    by_cases h1 : m.content = "" ∨ m.role = "system"
    · rw [if_pos h1]; exact ih n
    · rw [if_neg h1]
      by_cases h2 : m.role = "user"
      · rw [if_pos h2]
        simp only [List.map_cons, List.length_cons, ih (n + 1), List.range'_succ]
      · rw [if_neg h2]
        by_cases h3 : m.role = "assistant"
        · rw [if_pos h3]
          simp only [List.map_cons, List.length_cons, ih (n + 1), List.range'_succ]
        · rw [if_neg h3]; exact ih n

theorem turnsOk_backfill (msgs : List Message) : turnsOk (backfillTurns msgs 0) :=
  backfillTurns_map msgs 0

theorem turnsOk_add_turn (s : CallState) (role content : String)
    (ed : Option String) (h1 : turnsOk s.turns)
    (h2 : s.turn_counter = s.turns.length) :
    turnsOk (add_turn s role content ed).turns ∧
      (add_turn s role content ed).turn_counter =
        (add_turn s role content ed).turns.length := by
  have hturns : (add_turn s role content ed).turns =
      s.turns ++ [{ role := role, content := content,
                    turnNumber := s.turn_counter + 1, extractedData := ed }] := rfl
  have hcnt : (add_turn s role content ed).turn_counter = s.turn_counter + 1 := rfl
  constructor
  · unfold turnsOk at h1 ⊢
    rw [hturns]
    simp only [List.map_append, List.length_append, List.map_cons, List.map_nil,
      List.length_cons, List.length_nil, h1, h2]
    rw [List.range'_concat]
    simp [Nat.add_comm]
  · rw [hcnt, hturns, List.length_append, h2]
    rfl

/-! Section: frame lemmas for the reconciliation steps -/

theorem reconcileTurns_of_ne (ctx : List Message) (s : CallState)
    (h : s.turns ≠ []) : reconcileTurns ctx s = s := by
  unfold reconcileTurns; rw [if_neg h]

theorem reconcileTurns_turns_of_nil (ctx : List Message) (s : CallState)
    (h : s.turns = []) : (reconcileTurns ctx s).turns = backfillTurns ctx 0 := by
  unfold reconcileTurns; rw [if_pos h]

theorem reconcileTurns_intake (ctx : List Message) (s : CallState) :
    (reconcileTurns ctx s).intake_data = s.intake_data := by
  unfold reconcileTurns; split <;> rfl

theorem reconcileTurns_contact (ctx : List Message) (s : CallState) :
    (reconcileTurns ctx s).caller_name = s.caller_name ∧
    (reconcileTurns ctx s).caller_email = s.caller_email ∧
    (reconcileTurns ctx s).caller_address = s.caller_address := by
  unfold reconcileTurns; split <;> exact ⟨rfl, rfl, rfl⟩

theorem backfillSummary_frame (g : Option String) (s : CallState) :
    (backfillSummary g s).turns = s.turns ∧
    (backfillSummary g s).intake_data = s.intake_data ∧
    (backfillSummary g s).caller_name = s.caller_name ∧
    (backfillSummary g s).caller_email = s.caller_email ∧
    (backfillSummary g s).caller_address = s.caller_address := by
  unfold backfillSummary; split <;> exact ⟨rfl, rfl, rfl, rfl, rfl⟩

theorem applyExtraction_intake (s : CallState) (e : Extracted) :
    (applyExtraction s e).intake_data = e.fields := by
  unfold applyExtraction
  dsimp only
  split <;> split <;> split <;> split <;> rfl

theorem applyExtraction_turns (s : CallState) (e : Extracted) :
    (applyExtraction s e).turns = s.turns := by
  unfold applyExtraction
  dsimp only
  split <;> split <;> split <;> split <;> rfl

theorem applyExtraction_caller_name (s : CallState) (e : Extracted) :
    (applyExtraction s e).caller_name =
      if argTruthy e.callerName then e.callerName else s.caller_name := by
  unfold applyExtraction
  dsimp only
  split <;> split <;> split <;> split <;> rfl

theorem applyExtraction_caller_email (s : CallState) (e : Extracted) :
    (applyExtraction s e).caller_email =
      if argTruthy e.callerEmail then e.callerEmail else s.caller_email := by
  unfold applyExtraction
  dsimp only
  split <;> split <;> split <;> split <;> rfl

theorem applyExtraction_caller_address (s : CallState) (e : Extracted) :
    (applyExtraction s e).caller_address =
      if argTruthy e.callerAddress then e.callerAddress else s.caller_address := by
  unfold applyExtraction
  dsimp only
  split <;> split <;> split <;> split <;> rfl

theorem extract_from_context_snd (pce : Option Extracted) (gsum : Option String)
    (ctx : List Message) (s0 : CallState) :
    (extract_from_context pce gsum ctx s0).2 =
      shouldExtract (reconcileTurns ctx s0) := rfl

theorem extract_from_context_fst (pce : Option Extracted) (gsum : Option String)
    (ctx : List Message) (s0 : CallState) :
    (extract_from_context pce gsum ctx s0).1 =
      backfillSummary gsum
        (if shouldExtract (reconcileTurns ctx s0) then
          (match pce with
           | some e => applyExtraction (reconcileTurns ctx s0) e
           | none => reconcileTurns ctx s0)
         else reconcileTurns ctx s0) := rfl

theorem intakeEmptyish_iff (d : List (String × String)) :
    intakeEmptyish d = true ↔ (d = [] ∨ ∀ kv ∈ d, kv.2 = "") := by
  simp [intakeEmptyish, List.isEmpty_iff]

theorem shouldExtract_iff (s : CallState) :
    shouldExtract s = true ↔
      ((s.intake_data = [] ∨ ∀ kv ∈ s.intake_data, kv.2 = "") ∧
        pyStripStr (transcriptOf s.turns) ≠ "") := by
  rw [shouldExtract, Bool.and_eq_true, intakeEmptyish_iff]
  simp

/-! Section: strip and code-fence lemmas -/

theorem fence_eq : fence = ['\x60', '\x60', '\x60'] := by decide

theorem length_stripL_le (l : List Char) : (stripL l).length ≤ l.length :=
  (List.dropWhile_sublist pyIsSpace).length_le

theorem length_stripR_le (l : List Char) : (stripR l).length ≤ l.length := by
  have h := (List.dropWhile_sublist (l := l.reverse) pyIsSpace).length_le
  simpa [stripR] using h

theorem stripL_eq_self_of_pyStrip (p : List Char) (h : pyStrip p = p) :
    stripL p = p := by
  have hlen : (stripL p).length = p.length := by
    have h1 := length_stripR_le (stripL p)
    have h2 := length_stripL_le p
    have h3 : (pyStrip p).length = p.length := by rw [h]
    unfold pyStrip at h3
    omega
  exact (List.dropWhile_sublist pyIsSpace).eq_of_length hlen

theorem stripR_eq_self_of_pyStrip (p : List Char) (h : pyStrip p = p) :
    stripR p = p := by
  have hL := stripL_eq_self_of_pyStrip p h
  unfold pyStrip at h
  rw [hL] at h
  exact h

theorem stripL_cons_of_not (c : Char) (l : List Char)
    (h : pyIsSpace c = false) : stripL (c :: l) = c :: l := by
  simp [stripL, List.dropWhile_cons, h]

theorem stripR_concat_of_not (l : List Char) (c : Char)
    (h : pyIsSpace c = false) : stripR (l ++ [c]) = l ++ [c] := by
  simp [stripR, List.dropWhile_cons, h]

theorem pyStrip_sandwich (c₀ : Char) (mid : List Char) (c₁ : Char)
    (h₀ : pyIsSpace c₀ = false) (h₁ : pyIsSpace c₁ = false) :
    pyStrip (c₀ :: (mid ++ [c₁])) = c₀ :: (mid ++ [c₁]) := by
  unfold pyStrip
  rw [stripL_cons_of_not _ _ h₀,
      show c₀ :: (mid ++ [c₁]) = (c₀ :: mid) ++ [c₁] by simp,
      stripR_concat_of_not _ _ h₁]

theorem pyStrip_concat_newline (p : List Char) (h : pyStrip p = p) :
    pyStrip (p ++ ['\n']) = p := by
  cases p with
  | nil => decide
  | cons c p' =>
    have hL := stripL_eq_self_of_pyStrip _ h
    have hR := stripR_eq_self_of_pyStrip _ h
    have hc : pyIsSpace c = false := by
      by_contra hcc
      rw [Bool.not_eq_false] at hcc
      have hp : stripL (c :: p') = p'.dropWhile pyIsSpace := by
        simp [stripL, List.dropWhile_cons, hcc]
      have hlen := congrArg List.length hL
      rw [hp] at hlen
      have hle := (List.dropWhile_sublist (l := p') pyIsSpace).length_le
      simp at hlen
      omega
    have h1 : stripL ((c :: p') ++ ['\n']) = (c :: p') ++ ['\n'] := by
      rw [List.cons_append]
      exact stripL_cons_of_not _ _ hc
    have hR' : List.dropWhile pyIsSpace (p'.reverse ++ [c]) = p'.reverse ++ [c] := by
      have := congrArg List.reverse hR
      simpa [stripR, List.reverse_cons] using this
    have h2 : stripR ((c :: p') ++ ['\n']) = c :: p' := by
      unfold stripR
      rw [List.reverse_append]
      simp only [List.reverse_cons, List.reverse_nil, List.nil_append,
        List.singleton_append]
      rw [List.dropWhile_cons_of_pos (by decide), hR']
      simp
    unfold pyStrip
    rw [h1, h2]

theorem afterFirstNL_no_nl_append (l₁ l₂ : List Char) (h : '\n' ∉ l₁) :
    afterFirstNL (l₁ ++ '\n' :: l₂) = l₂ := by
  induction l₁ with
  | nil => simp [afterFirstNL]
  | cons c rest ih =>
    simp only [List.mem_cons, not_or] at h
    rw [List.cons_append]
    show (if c = '\n' then rest ++ '\n' :: l₂ else afterFirstNL (rest ++ '\n' :: l₂)) = l₂
    rw [if_neg (fun hh => h.1 hh.symm)]
    exact ih h.2

theorem dropLeadingFence_wrapped (l : List Char) :
    dropLeadingFence (fence ++ '\n' :: l) = l := by
  unfold dropLeadingFence
  rw [if_pos (by simp), if_pos (by simp)]
  exact afterFirstNL_no_nl_append fence l (by decide)

theorem dropTrailingFence_wrapped (p : List Char) :
    dropTrailingFence (p ++ '\n' :: fence) = p ++ ['\n'] := by
  unfold dropTrailingFence
  have hsuf : fence <:+ (p ++ '\n' :: fence) :=
    (List.suffix_append ['\n'] fence).trans (List.suffix_append p ('\n' :: fence))
  rw [if_pos (by simpa [List.isSuffixOf_iff_suffix] using hsuf)]
  have hshape : p ++ '\n' :: fence = (p ++ ['\n']) ++ fence := by simp
  have hlen : (p ++ '\n' :: fence).length - 3 = (p ++ ['\n']).length := by
    simp [fence_eq]
  rw [hlen, hshape, List.take_left]

theorem stripCodeFences_wrapped (p : List Char) (h : pyStrip p = p) :
    stripCodeFences (fence ++ '\n' :: (p ++ '\n' :: fence)) = p := by
  unfold stripCodeFences
  have hI : pyStrip (fence ++ '\n' :: (p ++ '\n' :: fence)) =
      fence ++ '\n' :: (p ++ '\n' :: fence) := by
    have hshape : fence ++ '\n' :: (p ++ '\n' :: fence) =
        '\x60' :: (('\x60' :: '\x60' :: '\n' :: (p ++ '\n' :: '\x60' :: '\x60' :: [])) ++ ['\x60']) := by
      simp [fence_eq]
    rw [hshape]
    rw [pyStrip_sandwich _ _ _ (by decide) (by decide)]
  rw [hI, dropLeadingFence_wrapped (p ++ '\n' :: fence),
      dropTrailingFence_wrapped p, pyStrip_concat_newline p h]

theorem extract_from_context_turns (pce : Option Extracted) (gsum : Option String)
    (ctx : List Message) (s : CallState) :
    (extract_from_context pce gsum ctx s).1.turns = (reconcileTurns ctx s).turns := by
  rw [extract_from_context_fst]
  rcases backfillSummary_frame gsum _ with ⟨ht, _⟩
  rw [ht]
  by_cases hse : shouldExtract (reconcileTurns ctx s) = true
  · rw [if_pos hse]
    cases pce with
    | none => rfl
    | some e => exact applyExtraction_turns _ e
  · rw [if_neg hse]

theorem handle_update_caller_name (s : CallState) (n e a : Option String) :
    (handle_update_caller s n e a).1.caller_name =
      if argTruthy n then n else s.caller_name := by
  unfold handle_update_caller
  by_cases h1 : argTruthy n <;> by_cases h2 : argTruthy e <;>
    by_cases h3 : argTruthy a <;> simp [h1, h2, h3]

theorem handle_update_caller_email (s : CallState) (n e a : Option String) :
    (handle_update_caller s n e a).1.caller_email =
      if argTruthy e then e else s.caller_email := by
  unfold handle_update_caller
  by_cases h1 : argTruthy n <;> by_cases h2 : argTruthy e <;>
    by_cases h3 : argTruthy a <;> simp [h1, h2, h3]

theorem handle_update_caller_address (s : CallState) (n e a : Option String) :
    (handle_update_caller s n e a).1.caller_address =
      if argTruthy a then a else s.caller_address := by
  unfold handle_update_caller
  by_cases h1 : argTruthy n <;> by_cases h2 : argTruthy e <;>
    by_cases h3 : argTruthy a <;> simp [h1, h2, h3]

/-! Section: the claims -/

/-- Claim C3: the persistence dispatcher performs at most one outbound
delivery attempt over a call state's lifetime.  It is a no-op (no
attempt, state unchanged) when the save guard is already set or the
turn list is empty; whenever an attempt is made the returned state has
the guard set; and a second invocation after any first invocation never
attempts delivery, regardless of the first delivery's outcome. -/
theorem c3_save_at_most_once (s : CallState) (d1 d2 : Bool) :
    (s.saved = true → save_call_data d1 s = (s, false)) ∧
    (s.turns = [] → save_call_data d1 s = (s, false)) ∧
    ((save_call_data d1 s).2 = true → (save_call_data d1 s).1.saved = true) ∧
    (save_call_data d2 (save_call_data d1 s).1).2 = false ∧
    ((save_call_data d1 s).2 = true →
      save_call_data d2 (save_call_data d1 s).1 = ((save_call_data d1 s).1, false)) := by
  unfold save_call_data
  by_cases hs : s.saved = true
  · simp [hs]
  · by_cases ht : s.turns = []
    · simp [hs, ht]
    · simp [hs, ht]

/-- Witness for C3 at a concrete one-turn state: the first call attempts
delivery (and fails), the second call is a no-op. -/
theorem c3_witness :
    save_call_data true (save_call_data false stateW).1 =
      ((save_call_data false stateW).1, false) :=
  (c3_save_at_most_once stateW false true).2.2.2.2 (by decide)

/-- Claim C7: classifying a call as `emergency` leaves `intake_data`
completely unchanged (no pre-seeding), and the returned directive
instructs immediate safety messaging and promises a technician callback
within 15 minutes. -/
theorem c7_emergency_no_preseed (s : CallState) :
    (handle_classify_call s (some "emergency")).1.intake_data = s.intake_data ∧
    hasSubstr (handle_classify_call s (some "emergency")).2
      "Provide immediate safety instructions" = true ∧
    hasSubstr (handle_classify_call s (some "emergency")).2
      "a technician will call back within 15 minutes" = true := by
  have hmsg : (handle_classify_call s (some "emergency")).2 =
      "Call classified as emergency. Provide immediate safety instructions and assure the caller a technician will call back within 15 minutes." := rfl
  refine ⟨rfl, ?_, ?_⟩ <;> rw [hmsg] <;> decide

/-- Claim C10: `update_caller_info` merges only present arguments — an
absent argument leaves the corresponding contact field untouched, a
previously known value is never cleared, and an invocation with no
arguments at all leaves the state exactly unchanged. -/
theorem c10_update_caller_merge (s : CallState) (name email address : Option String) :
    (name = none →
      (handle_update_caller s name email address).1.caller_name = s.caller_name) ∧
    (email = none →
      (handle_update_caller s name email address).1.caller_email = s.caller_email) ∧
    (address = none →
      (handle_update_caller s name email address).1.caller_address = s.caller_address) ∧
    (s.caller_name ≠ none →
      (handle_update_caller s name email address).1.caller_name ≠ none) ∧
    (s.caller_email ≠ none →
      (handle_update_caller s name email address).1.caller_email ≠ none) ∧
    (s.caller_address ≠ none →
      (handle_update_caller s name email address).1.caller_address ≠ none) ∧
    (name = none → email = none → address = none →
      (handle_update_caller s name email address).1 = s) := by
  refine ⟨?_, ?_, ?_, ?_, ?_, ?_, ?_⟩
  · intro h; subst h
    rw [handle_update_caller_name, if_neg (by simp [argTruthy])]
  · intro h; subst h
    rw [handle_update_caller_email, if_neg (by simp [argTruthy])]
  · intro h; subst h
    rw [handle_update_caller_address, if_neg (by simp [argTruthy])]
  · intro h
    rw [handle_update_caller_name]
    by_cases ht : argTruthy name = true
    · rw [if_pos ht]
      cases name with
      | none => simp [argTruthy] at ht
      | some v => simp
    · rw [if_neg ht]; exact h
  · intro h
    rw [handle_update_caller_email]
    by_cases ht : argTruthy email = true
    · rw [if_pos ht]
      cases email with
      | none => simp [argTruthy] at ht
      | some v => simp
    · rw [if_neg ht]; exact h
  · intro h
    rw [handle_update_caller_address]
    by_cases ht : argTruthy address = true
    · rw [if_pos ht]
      cases address with
      | none => simp [argTruthy] at ht
      | some v => simp
    · rw [if_neg ht]; exact h
  · intro h1 h2 h3; subst h1; subst h2; subst h3
    rfl

/-- Witness for C10 at a concrete state: the no-argument invocation is
the identity on the state. -/
theorem c10_witness :
    (handle_update_caller stateW none none none).1 = stateW :=
  (c10_update_caller_merge stateW none none none).2.2.2.2.2.2 rfl rfl rfl

/-- Claim C6: `update_intake_fields` stores every submitted key whose
value is non-empty (overwriting any prior value for that key), ignores
every submitted key whose value is the empty string (prior values are
kept), and leaves unsubmitted keys untouched — with no restriction to
the active schema, so unknown keys are accepted and stored too. -/
theorem c6_update_intake_stores (s : CallState) (fields : List (String × String))
    (hnd : (fields.map Prod.fst).Nodup) :
    (∀ k v, (k, v) ∈ fields →
      dictGet (handle_update_intake s fields).1.intake_data k =
        if v = "" then dictGet s.intake_data k else some v) ∧
    (∀ k, k ∉ fields.map Prod.fst →
      dictGet (handle_update_intake s fields).1.intake_data k =
        dictGet s.intake_data k) := by
  have hfst : (handle_update_intake s fields).1.intake_data =
      applyIntakeUpdates s.intake_data fields := rfl
  constructor
  · intro k v hm
    rw [hfst]
    exact applyIntakeUpdates_mem _ _ _ _ hnd hm
  · intro k hk
    rw [hfst]
    exact applyIntakeUpdates_notin _ _ _ hk

/-- Witness for C6: a non-schema key with a non-empty value is stored,
and an empty-string value for another key is ignored. -/
theorem c6_witness :
    (dictGet (handle_update_intake stateW [("petName", "Rex"), ("b", "")]).1.intake_data
        "petName" =
      if "Rex" = "" then dictGet stateW.intake_data "petName" else some "Rex") ∧
    (dictGet (handle_update_intake stateW [("petName", "Rex"), ("b", "")]).1.intake_data
        "b" =
      if "" = "" then dictGet stateW.intake_data "b" else some "") :=
  ⟨(c6_update_intake_stores stateW [("petName", "Rex"), ("b", "")] (by decide)).1
      "petName" "Rex" (by decide),
   (c6_update_intake_stores stateW [("petName", "Rex"), ("b", "")] (by decide)).1
      "b" "" (by decide)⟩

/-- Claim C5: for every registry call type (design/service/quote),
`classify_call` pre-seeds `intake_data` so that every registry field key
of that type ends up present — keys absent before are mapped to the
empty string, keys already present keep their stored value — and
classifying a fresh state as `design` yields exactly the 8 design field
keys, each mapped to the empty string. -/
theorem c5_classify_preseeds (s : CallState) (ct : String)
    (hct : ct = "design" ∨ ct = "service" ∨ ct = "quote") :
    (∀ f ∈ callTypeFields ct,
      dictGet (handle_classify_call s (some ct)).1.intake_data f.key =
        some ((dictGet s.intake_data f.key).getD "")) ∧
    (ct = "design" → s.intake_data = [] →
      (handle_classify_call s (some ct)).1.intake_data =
        [("buildingType", ""), ("buildingSize", ""), ("location", ""),
         ("projectGoals", ""), ("timeline", ""), ("budget", ""),
         ("existingSystem", ""), ("specialRequirements", "")]) := by
  have hfst : (handle_classify_call s (some ct)).1.intake_data =
      preseedFields s.intake_data (callTypeFields ct) := by
    rcases hct with h | h | h <;> subst h <;> simp [handle_classify_call]
  constructor
  · intro f hf
    rw [hfst]
    exact preseedFields_mem _ _ _ hf
  · intro hd hempty
    subst hd
    rw [hfst, hempty]
    decide

/-- Witness for C5: classifying a fresh state as `design` pre-seeds
exactly the 8 design keys with empty strings. -/
theorem c5_witness :
    (handle_classify_call (initState "CA5" "+15550003333" "inbound" none none)
        (some "design")).1.intake_data =
      [("buildingType", ""), ("buildingSize", ""), ("location", ""),
       ("projectGoals", ""), ("timeline", ""), ("budget", ""),
       ("existingSystem", ""), ("specialRequirements", "")] :=
  (c5_classify_preseeds (initState "CA5" "+15550003333" "inbound" none none)
    "design" (Or.inl rfl)).2 rfl rfl

/-- Claim C8: turn numbers form the strictly increasing gap-free
sequence 1, 2, …, n, both under live `add_turn` appends (which preserve
the invariant together with the counter/length correspondence) and
under turn backfill from an arbitrary message history; moreover the
reconciliation step never reorders or renumbers turns that already
exist. -/
theorem c8_turn_numbering (s : CallState) (role content : String)
    (ed : Option String) (ctx : List Message) (pce : Option Extracted)
    (gsum : Option String) (h1 : turnsOk s.turns)
    (h2 : s.turn_counter = s.turns.length) :
    (turnsOk (add_turn s role content ed).turns ∧
      (add_turn s role content ed).turn_counter =
        (add_turn s role content ed).turns.length) ∧
    turnsOk (backfillTurns ctx 0) ∧
    (s.turns ≠ [] → (extract_from_context pce gsum ctx s).1.turns = s.turns) ∧
    turnsOk (extract_from_context pce gsum ctx s).1.turns := by
  refine ⟨turnsOk_add_turn s role content ed h1 h2, turnsOk_backfill ctx, ?_, ?_⟩
  · intro h
    rw [extract_from_context_turns, reconcileTurns_of_ne ctx s h]
  · rw [extract_from_context_turns]
    by_cases hnil : s.turns = []
    · rw [reconcileTurns_turns_of_nil ctx s hnil]
      exact turnsOk_backfill ctx
    · rw [reconcileTurns_of_ne ctx s hnil]
      exact h1

/-- Witness for C8: one live append on a fresh state numbers the turn 1,
and backfill over a two-message history numbers the turns 1, 2. -/
theorem c8_witness :
    (turnsOk (add_turn (initState "CA8" "+15550004444" "inbound" none none)
        "caller" "hi" none).turns ∧
      (add_turn (initState "CA8" "+15550004444" "inbound" none none)
        "caller" "hi" none).turn_counter =
        (add_turn (initState "CA8" "+15550004444" "inbound" none none)
          "caller" "hi" none).turns.length) ∧
    turnsOk (backfillTurns
      [⟨"system", "prompt"⟩, ⟨"user", "hello"⟩, ⟨"assistant", "hi there"⟩] 0) ∧
    ((initState "CA8" "+15550004444" "inbound" none none).turns ≠ [] →
      (extract_from_context none none
        [⟨"system", "prompt"⟩, ⟨"user", "hello"⟩, ⟨"assistant", "hi there"⟩]
        (initState "CA8" "+15550004444" "inbound" none none)).1.turns =
        (initState "CA8" "+15550004444" "inbound" none none).turns) ∧
    turnsOk (extract_from_context none none
      [⟨"system", "prompt"⟩, ⟨"user", "hello"⟩, ⟨"assistant", "hi there"⟩]
      (initState "CA8" "+15550004444" "inbound" none none)).1.turns :=
  c8_turn_numbering (initState "CA8" "+15550004444" "inbound" none none)
    "caller" "hi" none
    [⟨"system", "prompt"⟩, ⟨"user", "hello"⟩, ⟨"assistant", "hi there"⟩]
    none none rfl rfl

/-- Claim C4: during reconciliation, post-call extraction is invoked if
and only if `intake_data` is empty or every stored value is the empty
string, and the reconstructed transcript is non-empty after stripping;
and on success the extracted fields mapping replaces `intake_data`
wholesale. -/
theorem c4_extraction_guard_and_replace (pce : Option Extracted)
    (gsum : Option String) (ctx : List Message) (s : CallState) :
    ((extract_from_context pce gsum ctx s).2 = true ↔
      ((s.intake_data = [] ∨ ∀ kv ∈ s.intake_data, kv.2 = "") ∧
        pyStripStr (transcriptOf (reconcileTurns ctx s).turns) ≠ "")) ∧
    (∀ e, pce = some e → (extract_from_context pce gsum ctx s).2 = true →
      (extract_from_context pce gsum ctx s).1.intake_data = e.fields) := by
  constructor
  · rw [extract_from_context_snd, shouldExtract_iff, reconcileTurns_intake]
  · intro e he hinv
    subst he
    rw [extract_from_context_snd] at hinv
    rw [extract_from_context_fst]
    rcases backfillSummary_frame gsum _ with ⟨_, hi, _⟩
    rw [hi, if_pos hinv]
    exact applyExtraction_intake _ e

/-- Witness for C4: a state with empty intake data and one turn invokes
extraction, and the extracted fields replace the (empty) mapping. -/
theorem c4_witness :
    (extract_from_context (some extractW) none [] stateW).1.intake_data =
      extractW.fields :=
  (c4_extraction_guard_and_replace (some extractW) none [] stateW).2
    extractW rfl (by decide)

/-- Claim C2 counterexample: a caller name already stored before
extraction runs (`Alice`) IS overwritten by the extracted value
(`Bob`), refuting the claim that contact fields are backfilled only
when still unset. -/
theorem c2_counterexample :
    stateC2.caller_name = some "Alice" ∧
    (extract_from_context (some extractC2) none [] stateC2).2 = true ∧
    (extract_from_context (some extractC2) none [] stateC2).1.caller_name =
      some "Bob" := by
  refine ⟨rfl, by decide, by decide⟩

/-- Claim C2 (amended): when post-call extraction runs and succeeds,
each of caller name, email and address is set to the extracted value
whenever that value is present and non-empty — even if a value was
already stored — and is left unchanged otherwise. -/
theorem c2_amended_contact_overwrite (pce : Option Extracted)
    (gsum : Option String) (ctx : List Message) (s : CallState) (e : Extracted)
    (he : pce = some e)
    (hinv : (extract_from_context pce gsum ctx s).2 = true) :
    (extract_from_context pce gsum ctx s).1.caller_name =
      (if argTruthy e.callerName then e.callerName else s.caller_name) ∧
    (extract_from_context pce gsum ctx s).1.caller_email =
      (if argTruthy e.callerEmail then e.callerEmail else s.caller_email) ∧
    (extract_from_context pce gsum ctx s).1.caller_address =
      (if argTruthy e.callerAddress then e.callerAddress else s.caller_address) := by
  subst he
  rw [extract_from_context_snd] at hinv
  refine ⟨?_, ?_, ?_⟩
  · rw [extract_from_context_fst, (backfillSummary_frame gsum _).2.2.1,
        if_pos hinv]
    dsimp only
    rw [applyExtraction_caller_name, (reconcileTurns_contact ctx s).1]
  · rw [extract_from_context_fst, (backfillSummary_frame gsum _).2.2.2.1,
        if_pos hinv]
    dsimp only
    rw [applyExtraction_caller_email, (reconcileTurns_contact ctx s).2.1]
  · rw [extract_from_context_fst, (backfillSummary_frame gsum _).2.2.2.2,
        if_pos hinv]
    dsimp only
    rw [applyExtraction_caller_address, (reconcileTurns_contact ctx s).2.2]

/-- Witness for the amended C2 at the concrete state: the stored name is
replaced by the non-empty extracted one. -/
theorem c2_amended_witness :
    (extract_from_context (some extractC2) none [] stateC2).1.caller_name =
      (if argTruthy extractC2.callerName then extractC2.callerName
       else stateC2.caller_name) ∧
    (extract_from_context (some extractC2) none [] stateC2).1.caller_email =
      (if argTruthy extractC2.callerEmail then extractC2.callerEmail
       else stateC2.caller_email) ∧
    (extract_from_context (some extractC2) none [] stateC2).1.caller_address =
      (if argTruthy extractC2.callerAddress then extractC2.callerAddress
       else stateC2.caller_address) :=
  c2_amended_contact_overwrite (some extractC2) none [] stateC2 extractC2
    rfl (by decide)

/-- Claim C1 counterexample: on a design call with all 5 required fields
populated but the 3 optional fields still empty, the status string
lists the OPTIONAL fields as still needed instead of signalling that
all fields are collected — refuting both that the listing covers only
required fields and that the all-collected directive appears as soon as
every required field is non-empty. -/
theorem c1_counterexample :
    (∀ f ∈ (callTypeFieldsOpt stateC1.call_type).filter (fun f => f.required),
      dictTruthy (handle_update_intake stateC1 fieldsC1).1.intake_data f.key = true) ∧
    hasSubstr (handle_update_intake stateC1 fieldsC1).2 "All fields collected" = false ∧
    (handle_update_intake stateC1 fieldsC1).2 =
      "Updated 5 field(s). 5/5 required fields collected. Still needed: Budget Range, Existing System, Special Requirements." := by
  refine ⟨by decide, by decide, by decide⟩

/-- Claim C1 (amended): the status string reports over ALL fields of the
active call type, required and optional alike — it names by label
exactly the fields that still lack a non-empty stored value, and it
signals that all fields are collected (directing a summary read-back
and confirmation) only once every field of the active type, optional
ones included, has a non-empty stored value. -/
theorem c1_amended_status (s : CallState) (fields : List (String × String)) :
    ((∀ f ∈ callTypeFieldsOpt s.call_type,
        dictTruthy (applyIntakeUpdates s.intake_data fields) f.key = true) →
      (handle_update_intake s fields).2 =
        statusBase s fields ++
          " All fields collected! Read back a summary and ask the caller to confirm.") ∧
    ((∃ f ∈ callTypeFieldsOpt s.call_type,
        dictTruthy (applyIntakeUpdates s.intake_data fields) f.key = false) →
      (handle_update_intake s fields).2 =
        statusBase s fields ++ " Still needed: " ++
          ", ".intercalate (((callTypeFieldsOpt s.call_type).filter
            (fun f => ! dictTruthy (applyIntakeUpdates s.intake_data fields) f.key)).map
              (fun f => f.label)) ++ ".") := by
  have hsnd : (handle_update_intake s fields).2 =
      if ((callTypeFieldsOpt s.call_type).filter
            (fun f => ! dictTruthy (applyIntakeUpdates s.intake_data fields) f.key)) ≠ [] then
        statusBase s fields ++ " Still needed: " ++
          ", ".intercalate (((callTypeFieldsOpt s.call_type).filter
            (fun f => ! dictTruthy (applyIntakeUpdates s.intake_data fields) f.key)).map
              (fun f => f.label)) ++ "."
      else
        statusBase s fields ++
          " All fields collected! Read back a summary and ask the caller to confirm." := rfl
  constructor
  · intro hall
    have hrem : (callTypeFieldsOpt s.call_type).filter
        (fun f => ! dictTruthy (applyIntakeUpdates s.intake_data fields) f.key) = [] := by
      rw [List.filter_eq_nil_iff]
      intro f hf
      simp [hall f hf]
    rw [hsnd, if_neg (by simp [hrem])]
  · intro hex
    obtain ⟨f, hf, hft⟩ := hex
    have hne : (callTypeFieldsOpt s.call_type).filter
        (fun f => ! dictTruthy (applyIntakeUpdates s.intake_data fields) f.key) ≠ [] := by
      apply List.ne_nil_of_mem (a := f)
      rw [List.mem_filter]
      exact ⟨hf, by simp [hft]⟩
    rw [hsnd, if_pos hne]

/-- Witness for the amended C1 at the concrete design state: the status
string lists the three optional labels after the counts. -/
theorem c1_amended_witness :
    (handle_update_intake stateC1 fieldsC1).2 =
      statusBase stateC1 fieldsC1 ++ " Still needed: " ++
        ", ".intercalate (((callTypeFieldsOpt stateC1.call_type).filter
          (fun f => ! dictTruthy (applyIntakeUpdates stateC1.intake_data fieldsC1) f.key)).map
            (fun f => f.label)) ++ "." :=
  (c1_amended_status stateC1 fieldsC1).2 (by decide)

/-- Claim C9: `post_call_extraction` strips a leading and a trailing
Markdown code fence before JSON parsing — a fence-wrapped payload is
parsed exactly as the bare payload — and it returns `none` (never
raising) both when the provider request fails and when JSON parsing of
the prepared text fails. -/
theorem c9_fence_stripping_and_failure (parseJson : List Char → Option Extracted)
    (p resp : List Char) (hp : pyStrip p = p) :
    post_call_extraction parseJson (some (fence ++ '\n' :: (p ++ '\n' :: fence))) =
      parseJson p ∧
    post_call_extraction parseJson none = none ∧
    (parseJson (stripCodeFences resp) = none →
      post_call_extraction parseJson (some resp) = none) := by
  refine ⟨?_, rfl, ?_⟩
  · show parseJson (stripCodeFences (fence ++ '\n' :: (p ++ '\n' :: fence))) =
      parseJson p
    rw [stripCodeFences_wrapped p hp]
  · intro h
    show parseJson (stripCodeFences resp) = none
    exact h

/-- Witness for C9 at the one-character payload `a` and the sample
parser. -/
theorem c9_witness :
    post_call_extraction pjW (some (fence ++ '\n' :: (['a'] ++ '\n' :: fence))) =
      pjW ['a'] ∧
    post_call_extraction pjW none = none ∧
    (pjW (stripCodeFences []) = none → post_call_extraction pjW (some []) = none) :=
  c9_fence_stripping_and_failure pjW ['a'] [] (by decide)

end HvacBot
